import Mathlib

/-!
Shallow embedding of the model-routing benchmark (src/config.py, src/router.py,
src/main.py) and verification of its specification claims.
-/

namespace ModelRouting

/-! ## Configuration (src/config.py) -/

/-- Constant `MODELS_FOR_ROUTING` from src/config.py: a single auto-route
sentinel. -/
def MODELS_FOR_ROUTING : List String := ["openrouter/auto"]

/-- Constant `OUTPUT_FILE_NAME` from src/config.py. -/
def OUTPUT_FILE_NAME : String := "questions_benchmark_results.json"

/-- Constant `CONCURRENT_REQUESTS` from src/config.py. -/
def CONCURRENT_REQUESTS : Nat := 5

/-! ## Remote completion client (src/router.py)

`OpenRouterClient.get_completion` loops `for attempt in range(retries)`, calling
the chat-completions endpoint each iteration.  The outcome of each underlying
call is abstracted as an oracle `call : Nat → CallOutcome` indexed by the
0-based attempt number. -/

/-- Outcome of one underlying `chat.completions.create` call: either a
response (carrying `completion.model` and `completion.choices[0].message.content`)
or one of the exception classes distinguished by src/router.py. -/
inductive CallOutcome where
  | success (model : String) (content : String)
  | rateLimitError
  | apiConnectionError
  | apiStatusError
  | otherError
deriving DecidableEq, Repr

/-- Trace of one `get_completion` invocation: the returned pair, the number of
attempts made, and the list of backoff sleeps performed (in order). -/
structure CompletionTrace where
  model_used : Option String
  answer : Option String
  attempts : Nat
  sleeps : List Nat
deriving DecidableEq, Repr

/-- The retry loop of `get_completion` (src/router.py lines 56-87).
`fuel` is the number of loop iterations remaining, `attempt` the 0-based index
of the next attempt, `delay` the current backoff delay.  On success it returns
the model and content; on a rate-limit / connection / status error it sleeps
`delay`, doubles `delay` and continues; on any other error it breaks; when the
loop ends it returns `(none, none)`. -/
def getCompletionLoop (call : Nat → CallOutcome) :
    Nat → Nat → Nat → CompletionTrace
  | 0, _, _ => ⟨none, none, 0, []⟩
  | fuel + 1, attempt, delay =>
    match call attempt with
    | .success m c => ⟨some m, some c, 1, []⟩
    | .rateLimitError =>
        let r := getCompletionLoop call fuel (attempt + 1) (delay * 2)
        ⟨r.model_used, r.answer, r.attempts + 1, delay :: r.sleeps⟩
    | .apiConnectionError =>
        let r := getCompletionLoop call fuel (attempt + 1) (delay * 2)
        ⟨r.model_used, r.answer, r.attempts + 1, delay :: r.sleeps⟩
    | .apiStatusError =>
        let r := getCompletionLoop call fuel (attempt + 1) (delay * 2)
        ⟨r.model_used, r.answer, r.attempts + 1, delay :: r.sleeps⟩
    | .otherError => ⟨none, none, 1, []⟩

/-- Method `OpenRouterClient.get_completion(prompt, retries=3, delay=2)`:
runs the retry loop from attempt 0 with the initial delay.  The prompt itself
only flows into the network call, which the oracle abstracts. -/
def get_completion (call : Nat → CallOutcome) (retries : Nat := 3)
    (delay : Nat := 2) : CompletionTrace :=
  getCompletionLoop call retries 0 delay

/-! ## Orchestrator data model (src/main.py) -/

/-- A question record from `questions-benchmark.json`:
`{id: integer, difficulty: string, question: string}`. -/
structure Question where
  id : Int
  difficulty : String
  question : String
deriving DecidableEq, Repr

/-- A result entry appended by `process_question` on success
(src/main.py lines 39-46). -/
structure ResultEntry where
  id : Int
  difficulty : String
  question : String
  model_used : String
  answer : String
deriving DecidableEq, Repr

/-- The mutable part of the `summary` dict that `process_question` updates:
`model_usage` (an insertion-ordered dict, modelled as an association list) and
`failed_questions`. -/
structure SummaryData where
  model_usage : List (String × Nat)
  failed_questions : List Int
deriving DecidableEq, Repr

/-- Python `d.get(k)` on an insertion-ordered dict modelled as an association
list: the value at the first (in a dict, only) binding of `k`. -/
def dictGet : List (String × Nat) → String → Option Nat
  | [], _ => none
  | p :: d, k => if p.1 = k then some p.2 else dictGet d k

/-- Python `d[k] = d.get(k, 0) + 1`: update the binding of `k` in place when
the key exists, append a new binding `(k, 1)` otherwise. -/
def dictIncr : List (String × Nat) → String → List (String × Nat)
  | [], k => [(k, 1)]
  | p :: d, k => if p.1 = k then (k, p.2 + 1) :: d else p :: dictIncr d k

/-- Python truthiness of an optional string: `None` and `""` are falsy. -/
def pyTruthy : Option String → Bool
  | none => false
  | some s => !s.isEmpty

/-- Handler `process_question` (src/main.py lines 20-53), given the pair returned by
`client.get_completion` for this question.  `if model_used and answer:` append
a `ResultEntry` and increment `model_usage[model_used]`; otherwise append the
question id to `failed_questions`. -/
def process_question (q : Question) (model_used answer : Option String)
    (st : List ResultEntry × SummaryData) : List ResultEntry × SummaryData :=
  if pyTruthy model_used && pyTruthy answer then
    (st.1 ++ [⟨q.id, q.difficulty, q.question, model_used.getD "", answer.getD ""⟩],
      { st.2 with model_usage := dictIncr st.2.model_usage (model_used.getD "") })
  else
    (st.1, { st.2 with failed_questions := st.2.failed_questions ++ [q.id] })

/-- One complete dispatch: the handler of every question runs exactly once and its
mutation of the shared `benchmark_results` / `summary` structures is atomic
under the cooperative model (spec §4.2), so a run is a left fold of
`process_question` over the questions in completion order.  The oracle gives
the pair `get_completion` returned for each question. -/
def runQuestions (oracle : Question → Option String × Option String)
    (order : List Question) : List ResultEntry × SummaryData :=
  order.foldl
    (fun st q => process_question q (oracle q).1 (oracle q).2 st)
    ([], ⟨[], []⟩)

/-- The sort `benchmark_results.sort(key=lambda x: x.get("id", 0))` (src/main.py
line 109): stable ascending sort by id. -/
def sortResults (rs : List ResultEntry) : List ResultEntry :=
  rs.mergeSort (fun a b => a.id ≤ b.id)

/-- The full `summary` dict built at src/main.py lines 83-90 and written into
the report. -/
structure Summary where
  timestamp : String
  total_questions : Nat
  models_configured_for_routing : List String
  model_usage : List (String × Nat)
  failed_questions : List Int
  routing_insights : String
deriving DecidableEq, Repr

/-- The `routing_insights` text from the summary dict literal
(src/main.py line 89), paraphrased; no claim depends on its exact content. -/
def routingInsightsText : String :=
  "model routing dynamically selects the best model from the configured list"

/-- The `final_output` structure (src/main.py lines 112-115). -/
structure Report where
  results : List ResultEntry
  summary : Summary
deriving DecidableEq, Repr

/-- Assemble the report for a completed run: fold the handlers in completion
order, sort the results by id, and pair them with the finalized summary
(src/main.py lines 82-115). -/
def buildReport (timestamp : String)
    (oracle : Question → Option String × Option String)
    (questions order : List Question) : Report :=
  let st := runQuestions oracle order
  { results := sortResults st.1
    summary :=
      { timestamp := timestamp
        total_questions := questions.length
        models_configured_for_routing := MODELS_FOR_ROUTING
        model_usage := st.2.model_usage
        failed_questions := st.2.failed_questions
        routing_insights := routingInsightsText } }

/-- Outcome of loading `questions-benchmark.json` (src/main.py lines 68-77):
the file may be missing (`FileNotFoundError`), malformed
(`json.JSONDecodeError`), or parse to a list of questions. -/
inductive LoadResult where
  | fileMissing
  | parseError
  | ok (questions : List Question)
deriving DecidableEq, Repr

/-- Observable effect of one `main()` run: how many handler invocations were
dispatched and what report, if any, was written to the output file. -/
structure MainResult where
  dispatched : Nat
  written : Option Report
deriving DecidableEq, Repr

/-- Entry point `main()` (src/main.py lines 55-129).  It returns before any dispatch if
`OPEN_ROUTER_API_KEY` is unset (falsy), or if the question file is missing or
malformed; otherwise it dispatches one handler per question and writes the
assembled report.  `apiKey` is `os.getenv("OPEN_ROUTER_API_KEY")`; `order`
maps the loaded questions to their completion order. -/
def mainRun (apiKey : Option String) (load : LoadResult) (timestamp : String)
    (oracle : Question → Option String × Option String)
    (order : List Question → List Question) : MainResult :=
  if !pyTruthy apiKey then ⟨0, none⟩
  else
    match load with
    | .fileMissing => ⟨0, none⟩
    | .parseError => ⟨0, none⟩
    | .ok qs => ⟨qs.length, some (buildReport timestamp oracle qs (order qs))⟩

/-! ## Bounded dispatcher step relation (src/main.py lines 92-106)

`asyncio.Semaphore(CONCURRENT_REQUESTS)` gates `semaphored_process_question`:
a handler body starts only after acquiring the semaphore, i.e. only while
fewer than the limit are running, and releases it when it finishes.  The
dispatcher is modelled as a labelled-free step relation on the vector of
per-task states, together with a per-task invocation counter. -/

/-- State of one `semaphored_process_question` task. -/
inductive TaskState where
  | pending
  | running
  | done
deriving DecidableEq, Repr

/-- Number of handler bodies currently in flight. -/
def runningCount (ts : List TaskState) : Nat :=
  ts.countP (fun t => t = TaskState.running)

/-- Dispatcher state: per-task status and how often each handler has been
invoked. -/
structure DState where
  tasks : List TaskState
  invoked : Nat → Nat

/-- Initial dispatcher state for `n` questions: all tasks created by
`asyncio.gather`, none started, none invoked. -/
def initDState (n : Nat) : DState :=
  ⟨List.replicate n .pending, fun _ => 0⟩

/-- One scheduler step of the semaphore-gated dispatcher: a pending task may
enter its handler body only when fewer than `limit` are running (semaphore
acquire), and a running task may finish (semaphore release). -/
inductive DStep (limit : Nat) : DState → DState → Prop
  | start (s : DState) (i : Nat) (h : s.tasks[i]? = some .pending)
      (hc : runningCount s.tasks < limit) :
      DStep limit s
        ⟨s.tasks.set i .running, fun j => if j = i then s.invoked j + 1 else s.invoked j⟩
  | finish (s : DState) (i : Nat) (h : s.tasks[i]? = some .running) :
      DStep limit s ⟨s.tasks.set i .done, s.invoked⟩

/-- States the dispatcher can reach from the initial state. -/
def DReachable (limit n : Nat) (s : DState) : Prop :=
  Relation.ReflTransGen (DStep limit) (initDState n) s

/-! ## Serialization of the summary (src/main.py lines 83-90, 119-120)

`json.dump(final_output, ...)` writes the `summary` dict with its keys in
insertion order; the dict literal at lines 83-90 fixes those keys. -/

/-- JSON values, as far as the report needs them. -/
inductive JValue where
  | str (s : String)
  | num (n : Int)
  | arr (elems : List JValue)
  | obj (fields : List (String × JValue))

/-- The serialized `summary` dict, key by key in the order of the literal at
src/main.py lines 83-90. -/
def Summary.toJson (s : Summary) : List (String × JValue) :=
  [("timestamp", .str s.timestamp),
   ("total_questions", .num s.total_questions),
   ("models_configured_for_routing",
     .arr (s.models_configured_for_routing.map .str)),
   ("model_usage", .obj (s.model_usage.map fun p => (p.1, .num p.2))),
   ("failed_questions", .arr (s.failed_questions.map .num)),
   ("routing_insights", .str s.routing_insights)]

/-- The keys of the serialized summary. -/
def summaryKeys (s : Summary) : List String :=
  (Summary.toJson s).map (fun p => p.1)

/-! ## Auxiliary definitions for the run-level claims -/

/-- The question ids recorded in a run state: the ids of the result entries
followed by the failed ids. -/
def idsOf (st : List ResultEntry × SummaryData) : List Int :=
  st.1.map (fun e => e.id) ++ st.2.failed_questions

/-- Fixture: two questions with ids 1 and 2. -/
def wQuestions : List Question :=
  [⟨1, "easy", "q1"⟩, ⟨2, "hard", "q2"⟩]

/-- Fixture: a client behaviour that answers question 1 with model "m1" and
fails question 2. -/
def wOracle : Question → Option String × Option String :=
  fun q => if q.id = 1 then (some "m1", some "a1") else (none, none)

/-- Number of result entries answered by model `m`. -/
def usageCount (rs : List ResultEntry) (m : String) : Nat :=
  (rs.filter (fun e => e.model_used = m)).length

/-- The accounting invariant: `model_usage` holds a binding for `m` exactly
when some result entry used `m`, and its value is the number of such
entries. -/
def UsageOk (st : List ResultEntry × SummaryData) : Prop :=
  ∀ m, dictGet st.2.model_usage m =
    if usageCount st.1 m = 0 then none else some (usageCount st.1 m)

/-- The reachability invariant of the semaphore-gated dispatcher: the task
vector keeps its length, at most `limit` handler bodies are in flight, and
each handler has been invoked exactly zero times while pending and exactly
once from the moment it starts. -/
def DInv (limit n : Nat) (s : DState) : Prop :=
  s.tasks.length = n ∧
  runningCount s.tasks ≤ limit ∧
  (∀ i, s.tasks[i]? = some .pending → s.invoked i = 0) ∧
  (∀ i, s.tasks[i]? = some .running → s.invoked i = 1) ∧
  (∀ i, s.tasks[i]? = some .done → s.invoked i = 1)

/-- Fixture: the dispatcher state after the single task of a one-question run
has started. -/
def wMidDState : DState :=
  ⟨[TaskState.running], fun j => if j = 0 then 0 + 1 else 0⟩

/-- Fixture: the dispatcher state after the single task of a one-question run
has finished. -/
def wFinalDState : DState :=
  ⟨[TaskState.done], fun j => if j = 0 then 0 + 1 else 0⟩

/-! ## Claims about the client -/

/-- C2: if every attempt fails with a rate-limit error and `retries = 3`,
`get_completion` returns the sentinel pair `(none, none)` after making exactly
3 attempts. -/
theorem getCompletion_rate_limit_exhaustion (call : Nat → CallOutcome)
    (h : ∀ n, call n = CallOutcome.rateLimitError) :
    (get_completion call 3 2).model_used = none ∧
    (get_completion call 3 2).answer = none ∧
    (get_completion call 3 2).attempts = 3 := by
  simp [get_completion, getCompletionLoop, h]

/-- Witness for C2: the constant rate-limit oracle. -/
theorem getCompletion_rate_limit_exhaustion_witness :
    (get_completion (fun _ => CallOutcome.rateLimitError) 3 2).model_used = none ∧
    (get_completion (fun _ => CallOutcome.rateLimitError) 3 2).answer = none ∧
    (get_completion (fun _ => CallOutcome.rateLimitError) 3 2).attempts = 3 :=
  getCompletion_rate_limit_exhaustion (fun _ => CallOutcome.rateLimitError)
    (fun _ => rfl)

/-- C3: with `retries = 3` and initial `delay = 2`, if attempts 1 and 2 hit a
rate-limit error and attempt 3 succeeds, `get_completion` returns the model
name and first-choice text of the successful response after 3 attempts, the
backoff sleeps are `[2, 4]` (the delay doubling after each rate-limited
attempt), and their sum is at least 6 seconds. -/
theorem getCompletion_backoff_then_success (call : Nat → CallOutcome)
    (m a : String)
    (h0 : call 0 = CallOutcome.rateLimitError)
    (h1 : call 1 = CallOutcome.rateLimitError)
    (h2 : call 2 = CallOutcome.success m a) :
    (get_completion call 3 2).model_used = some m ∧
    (get_completion call 3 2).answer = some a ∧
    (get_completion call 3 2).attempts = 3 ∧
    (get_completion call 3 2).sleeps = [2, 4] ∧
    6 ≤ (get_completion call 3 2).sleeps.sum := by
  simp [get_completion, getCompletionLoop, h0, h1, h2]

/-- Witness for C3: an oracle rate-limited twice, then succeeding with model
"m1" and answer "ans". -/
theorem getCompletion_backoff_then_success_witness :
    (get_completion
        (fun n => if n < 2 then CallOutcome.rateLimitError
                  else CallOutcome.success "m1" "ans") 3 2).model_used = some "m1" ∧
    (get_completion
        (fun n => if n < 2 then CallOutcome.rateLimitError
                  else CallOutcome.success "m1" "ans") 3 2).answer = some "ans" ∧
    (get_completion
        (fun n => if n < 2 then CallOutcome.rateLimitError
                  else CallOutcome.success "m1" "ans") 3 2).attempts = 3 ∧
    (get_completion
        (fun n => if n < 2 then CallOutcome.rateLimitError
                  else CallOutcome.success "m1" "ans") 3 2).sleeps = [2, 4] ∧
    6 ≤ (get_completion
        (fun n => if n < 2 then CallOutcome.rateLimitError
                  else CallOutcome.success "m1" "ans") 3 2).sleeps.sum :=
  getCompletion_backoff_then_success _ "m1" "ans" rfl rfl rfl

/-- C4: if the first attempt raises an error class that is neither a
rate-limit nor a connectivity/server-status error, `get_completion` does not
retry: it returns `(none, none)` after exactly 1 attempt with no backoff
sleep. -/
theorem getCompletion_non_retryable_aborts (call : Nat → CallOutcome)
    (h : call 0 = CallOutcome.otherError) :
    (get_completion call 3 2).model_used = none ∧
    (get_completion call 3 2).answer = none ∧
    (get_completion call 3 2).attempts = 1 ∧
    (get_completion call 3 2).sleeps = [] := by
  simp [get_completion, getCompletionLoop, h]

/-- Witness for C4: the constant unrecognized-error oracle. -/
theorem getCompletion_non_retryable_aborts_witness :
    (get_completion (fun _ => CallOutcome.otherError) 3 2).model_used = none ∧
    (get_completion (fun _ => CallOutcome.otherError) 3 2).answer = none ∧
    (get_completion (fun _ => CallOutcome.otherError) 3 2).attempts = 1 ∧
    (get_completion (fun _ => CallOutcome.otherError) 3 2).sleeps = [] :=
  getCompletion_non_retryable_aborts (fun _ => CallOutcome.otherError) rfl

/-! ## Claims about the orchestrator -/

/-- C10: if `get_completion` returns without exception but the returned
answer text is the empty string, or the returned model name is the empty
string, `process_question` classifies the question as failed: its id is
appended to `failed_questions` and no `ResultEntry` is appended, because the
success test `if model_used and answer` requires both values to be truthy
(non-`None` and non-empty), not merely non-`None`. -/
theorem processQuestion_empty_string_fails (q : Question)
    (model_used answer : Option String)
    (st : List ResultEntry × SummaryData)
    (h : model_used = some "" ∨ answer = some "") :
    process_question q model_used answer st =
      (st.1, { st.2 with failed_questions := st.2.failed_questions ++ [q.id] }) := by
  have he : "".isEmpty = true := by decide
  rcases h with h | h <;>
    · subst h
      simp [process_question, pyTruthy, he]

/-- Witness for C10: an empty answer string on a concrete question and empty
initial state. -/
theorem processQuestion_empty_string_fails_witness :
    process_question ⟨7, "easy", "why"⟩ (some "m1") (some "") ([], ⟨[], []⟩) =
      ([], ⟨[], [7]⟩) :=
  processQuestion_empty_string_fails ⟨7, "easy", "why"⟩ (some "m1") (some "")
    ([], ⟨[], []⟩) (Or.inr rfl)

/-- C8: if the API-key environment variable is absent, or the question file
is missing, or it is not valid JSON, `main` aborts before any dispatch and
writes no output file. -/
theorem mainRun_preflight_aborts (apiKey : Option String) (load : LoadResult)
    (timestamp : String) (oracle : Question → Option String × Option String)
    (order : List Question → List Question)
    (h : apiKey = none ∨ load = LoadResult.fileMissing ∨
      load = LoadResult.parseError) :
    mainRun apiKey load timestamp oracle order = ⟨0, none⟩ := by
  rcases h with h | h | h
  · subst h
    simp [mainRun, pyTruthy]
  · subst h
    unfold mainRun
    split <;> rfl
  · subst h
    unfold mainRun
    split <;> rfl

/-- Witness for C8: no API key in the environment. -/
theorem mainRun_preflight_aborts_witness :
    mainRun none (LoadResult.ok []) "t" (fun _ => (none, none)) id = ⟨0, none⟩ :=
  mainRun_preflight_aborts none (LoadResult.ok []) "t" (fun _ => (none, none)) id
    (Or.inl rfl)

/-- C9 counterexample: the summary written for a concrete completed run does
not consist of exactly the five claimed fields — the dict literal also carries
`routing_insights`. -/
theorem summaryKeys_not_five_fields :
    ¬ (summaryKeys (buildReport "t" (fun _ => (none, none)) [] []).summary =
      ["timestamp", "total_questions", "models_configured_for_routing",
        "model_usage", "failed_questions"]) := by
  decide

/-- C9 amended: the finalized summary in the written report consists exactly
of the fields `timestamp`, `total_questions`, `models_configured_for_routing`,
`model_usage`, `failed_questions` and `routing_insights` — these six and no
others. -/
theorem summaryKeys_six_fields (timestamp : String)
    (oracle : Question → Option String × Option String)
    (questions order : List Question) :
    summaryKeys (buildReport timestamp oracle questions order).summary =
      ["timestamp", "total_questions", "models_configured_for_routing",
        "model_usage", "failed_questions", "routing_insights"] :=
  rfl

/-- C5: the results sequence in the written report is sorted ascending by
question id, regardless of the order in which the concurrently dispatched
handlers completed. -/
theorem report_results_sorted_by_id (timestamp : String)
    (oracle : Question → Option String × Option String)
    (questions order : List Question) :
    List.Pairwise (fun a b : ResultEntry => a.id ≤ b.id)
      (buildReport timestamp oracle questions order).results := by
  have h := @List.sorted_mergeSort ResultEntry
    (fun a b => decide (a.id ≤ b.id))
    (by intro a b c hab hbc; simp only [decide_eq_true_eq] at hab hbc ⊢; omega)
    (by intro a b; simp only [Bool.or_eq_true, decide_eq_true_eq]; omega)
    (runQuestions oracle order).1
  exact h.imp (fun hab => of_decide_eq_true hab)

/-! ### Partition of the question ids (claim C1) -/

lemma idsOf_process_question (q : Question) (mo ao : Option String)
    (st : List ResultEntry × SummaryData) :
    (idsOf (process_question q mo ao st)).Perm (idsOf st ++ [q.id]) := by
  unfold process_question
  split
  · simp only [idsOf, List.map_append, List.map_cons, List.map_nil,
      List.append_assoc]
    exact List.Perm.append_left _ List.perm_append_comm
  · simp [idsOf, List.append_assoc]

lemma idsOf_runQuestions_from (oracle : Question → Option String × Option String)
    (order : List Question) (st : List ResultEntry × SummaryData) :
    (idsOf (order.foldl
        (fun s q => process_question q (oracle q).1 (oracle q).2 s) st)).Perm
      (idsOf st ++ order.map (fun q => q.id)) := by
  induction order generalizing st with
  | nil => simp
  | cons q rest ih =>
    simp only [List.foldl_cons, List.map_cons]
    refine (ih _).trans ?_
    refine ((idsOf_process_question q _ _ st).append_right _).trans ?_
    simp [List.append_assoc]

lemma idsOf_runQuestions (oracle : Question → Option String × Option String)
    (order : List Question) :
    (idsOf (runQuestions oracle order)).Perm (order.map (fun q => q.id)) := by
  have h := idsOf_runQuestions_from oracle order ([], ⟨[], []⟩)
  simpa [idsOf] using h

/-- C1: for a completed run over questions with pairwise-distinct ids, each
question id lands in exactly one of the report fields `results` or
`summary.failed_questions`: the lengths add up to `total_questions`, the two
id collections are disjoint, and together they are a permutation of the input
ids. -/
theorem report_partitions_question_ids (timestamp : String)
    (oracle : Question → Option String × Option String)
    (questions order : List Question)
    (hperm : order.Perm questions)
    (hnodup : (questions.map (fun q => q.id)).Nodup) :
    (buildReport timestamp oracle questions order).results.length +
        (buildReport timestamp oracle questions order).summary.failed_questions.length =
      (buildReport timestamp oracle questions order).summary.total_questions ∧
    List.Disjoint
      ((buildReport timestamp oracle questions order).results.map (fun e => e.id))
      (buildReport timestamp oracle questions order).summary.failed_questions ∧
    (((buildReport timestamp oracle questions order).results.map (fun e => e.id)) ++
        (buildReport timestamp oracle questions order).summary.failed_questions).Perm
      (questions.map (fun q => q.id)) := by
  have hsort : ((runQuestions oracle order).1.mergeSort
        (fun a b => a.id ≤ b.id)).Perm (runQuestions oracle order).1 :=
    List.mergeSort_perm _ _
  have hids : ((buildReport timestamp oracle questions order).results.map
        (fun e => e.id) ++
      (buildReport timestamp oracle questions order).summary.failed_questions).Perm
      (questions.map (fun q => q.id)) := by
    refine ((hsort.map (fun e => e.id)).append_right _).trans ?_
    exact (idsOf_runQuestions oracle order).trans (hperm.map _)
  refine ⟨?_, ?_, hids⟩
  · have hlen := hids.length_eq
    simp only [List.length_append, List.length_map] at hlen
    simpa [buildReport] using hlen
  · have hnd : (((buildReport timestamp oracle questions order).results.map
        (fun e => e.id)) ++
        (buildReport timestamp oracle questions order).summary.failed_questions).Nodup :=
      hids.nodup_iff.mpr hnodup
    exact (List.nodup_append.mp hnd).2.2

/-- Witness for C1: two questions with ids 1 and 2, the first answered by
"m1", the second failing. -/
theorem report_partitions_question_ids_witness :
    (buildReport "t" wOracle wQuestions wQuestions).results.length +
        (buildReport "t" wOracle wQuestions wQuestions).summary.failed_questions.length =
      (buildReport "t" wOracle wQuestions wQuestions).summary.total_questions ∧
    List.Disjoint
      ((buildReport "t" wOracle wQuestions wQuestions).results.map (fun e => e.id))
      (buildReport "t" wOracle wQuestions wQuestions).summary.failed_questions ∧
    (((buildReport "t" wOracle wQuestions wQuestions).results.map (fun e => e.id)) ++
        (buildReport "t" wOracle wQuestions wQuestions).summary.failed_questions).Perm
      (wQuestions.map (fun q => q.id)) :=
  report_partitions_question_ids "t" wOracle wQuestions wQuestions
    (List.Perm.refl _) (by decide)

/-! ### Model-usage accounting (claim C6) -/

lemma dictGet_dictIncr (d : List (String × Nat)) (k m : String) :
    dictGet (dictIncr d k) m =
      if m = k then some ((dictGet d k).getD 0 + 1) else dictGet d m := by
  induction d with
  | nil =>
    by_cases hm : m = k
    · subst hm; simp [dictIncr, dictGet]
    · simp [dictIncr, dictGet, hm, Ne.symm hm]
  | cons p d ih =>
    by_cases hp : p.1 = k
    · by_cases hm : m = k
      · subst hm; simp [dictIncr, dictGet, hp]
      · have hpm : p.1 ≠ m := by rw [hp]; exact Ne.symm hm
        simp [dictIncr, dictGet, hp, hm, hpm, Ne.symm hm]
    · by_cases hpm : p.1 = m
      · have hm : m ≠ k := by rw [← hpm]; exact hp
        simp [dictIncr, dictGet, hp, hpm, hm]
      · simp [dictIncr, dictGet, hp, hpm, ih]

lemma usageCount_append_single (rs : List ResultEntry) (e : ResultEntry)
    (m : String) :
    usageCount (rs ++ [e]) m =
      usageCount rs m + (if e.model_used = m then 1 else 0) := by
  by_cases h : e.model_used = m <;> simp [usageCount, List.filter_append, h]

lemma usageOk_process_question (q : Question) (mo ao : Option String)
    (st : List ResultEntry × SummaryData) (hst : UsageOk st) :
    UsageOk (process_question q mo ao st) := by
  intro m
  unfold process_question
  split
  · show dictGet (dictIncr st.2.model_usage (mo.getD "")) m =
      if usageCount
          (st.1 ++ [⟨q.id, q.difficulty, q.question, mo.getD "", ao.getD ""⟩]) m = 0
        then none
        else some (usageCount
          (st.1 ++ [⟨q.id, q.difficulty, q.question, mo.getD "", ao.getD ""⟩]) m)
    rw [dictGet_dictIncr, usageCount_append_single]
    by_cases hm : m = mo.getD ""
    · subst hm
      rw [if_pos rfl, hst (mo.getD "")]
      by_cases hc : usageCount st.1 (mo.getD "") = 0 <;> simp [hc]
    · simp only [if_neg hm, if_neg (Ne.symm hm), Nat.add_zero]
      exact hst m
  · exact hst m

lemma usageOk_runQuestions_from
    (oracle : Question → Option String × Option String)
    (order : List Question) (st : List ResultEntry × SummaryData)
    (hst : UsageOk st) :
    UsageOk (order.foldl
      (fun s q => process_question q (oracle q).1 (oracle q).2 s) st) := by
  induction order generalizing st with
  | nil => exact hst
  | cons q rest ih =>
    simp only [List.foldl_cons]
    exact ih _ (usageOk_process_question q _ _ st hst)

/-- C6: in the written report, `summary.model_usage` maps each model name `m`
to exactly the number of result entries whose `model_used` equals `m`, and
holds a binding for `m` exactly when `m` appears among the `model_used`
values of the results (a zero count is never recorded, an absent key means a
zero count). -/
theorem report_model_usage_counts (timestamp : String)
    (oracle : Question → Option String × Option String)
    (questions order : List Question) (m : String) :
    dictGet (buildReport timestamp oracle questions order).summary.model_usage m =
      if usageCount (buildReport timestamp oracle questions order).results m = 0
      then none
      else some (usageCount (buildReport timestamp oracle questions order).results m) := by
  have hc : usageCount (buildReport timestamp oracle questions order).results m
      = usageCount (runQuestions oracle order).1 m := by
    have hperm := List.mergeSort_perm (runQuestions oracle order).1
      (fun a b => a.id ≤ b.id)
    simp only [usageCount]
    exact (hperm.filter _).length_eq
  rw [hc]
  have hbase : UsageOk ([], ⟨[], []⟩) := by
    intro m'
    simp [dictGet, usageCount]
  exact usageOk_runQuestions_from oracle order ([], ⟨[], []⟩) hbase m

/-! ### Bounded dispatcher (claim C7) -/

lemma runningCount_replicate_pending (n : Nat) :
    runningCount (List.replicate n TaskState.pending) = 0 := by
  induction n with
  | zero => rfl
  | succ n ih =>
    simp only [List.replicate_succ, runningCount, List.countP_cons] at ih ⊢
    simp [ih]

lemma runningCount_set_start (ts : List TaskState) (i : Nat)
    (h : ts[i]? = some TaskState.pending) :
    runningCount (ts.set i TaskState.running) = runningCount ts + 1 := by
  induction ts generalizing i with
  | nil => simp at h
  | cons a ts ih =>
    cases i with
    | zero =>
      simp only [List.getElem?_cons_zero, Option.some.injEq] at h
      subst h
      simp [runningCount, List.countP_cons]
    | succ i =>
      simp only [List.getElem?_cons_succ] at h
      have hih := ih i h
      simp only [runningCount, List.set_cons_succ, List.countP_cons] at hih ⊢
      omega

lemma runningCount_set_finish (ts : List TaskState) (i : Nat)
    (h : ts[i]? = some TaskState.running) :
    runningCount (ts.set i TaskState.done) + 1 = runningCount ts := by
  induction ts generalizing i with
  | nil => simp at h
  | cons a ts ih =>
    cases i with
    | zero =>
      simp only [List.getElem?_cons_zero, Option.some.injEq] at h
      subst h
      simp [runningCount, List.countP_cons]
    | succ i =>
      simp only [List.getElem?_cons_succ] at h
      have hih := ih i h
      simp only [runningCount, List.set_cons_succ, List.countP_cons] at hih ⊢
      omega

lemma dInv_init (limit n : Nat) : DInv limit n (initDState n) := by
  refine ⟨by simp [initDState], ?_, ?_, ?_, ?_⟩
  · simp [initDState, runningCount_replicate_pending]
  · intro i _
    rfl
  · intro i h
    rw [show (initDState n).tasks = List.replicate n TaskState.pending from rfl,
      List.getElem?_replicate] at h
    split at h <;> simp_all
  · intro i h
    rw [show (initDState n).tasks = List.replicate n TaskState.pending from rfl,
      List.getElem?_replicate] at h
    split at h <;> simp_all

lemma dInv_step (limit n : Nat) (s s' : DState) (hs : DInv limit n s)
    (hstep : DStep limit s s') : DInv limit n s' := by
  obtain ⟨hlen, hrun, hpend, hrunning, hdone⟩ := hs
  cases hstep with
  | start i h hc =>
    have hilt : i < s.tasks.length :=
      (List.getElem?_eq_some_iff.mp h).1
    refine ⟨by simpa using hlen, ?_, ?_, ?_, ?_⟩
    · rw [runningCount_set_start s.tasks i h]
      omega
    · intro j hj
      by_cases hij : j = i
      · subst hij
        rw [List.getElem?_set_self hilt] at hj
        cases hj
      · rw [List.getElem?_set_ne (Ne.symm hij)] at hj
        simp only [if_neg hij]
        exact hpend j hj
    · intro j hj
      by_cases hij : j = i
      · subst hij
        simp [hpend j h]
      · rw [List.getElem?_set_ne (Ne.symm hij)] at hj
        simp only [if_neg hij]
        exact hrunning j hj
    · intro j hj
      by_cases hij : j = i
      · subst hij
        rw [List.getElem?_set_self hilt] at hj
        cases hj
      · rw [List.getElem?_set_ne (Ne.symm hij)] at hj
        simp only [if_neg hij]
        exact hdone j hj
  | finish i h =>
    have hilt : i < s.tasks.length :=
      (List.getElem?_eq_some_iff.mp h).1
    refine ⟨by simpa using hlen, ?_, ?_, ?_, ?_⟩
    · show runningCount (s.tasks.set i TaskState.done) ≤ limit
      have := runningCount_set_finish s.tasks i h
      omega
    · intro j hj
      by_cases hij : j = i
      · subst hij
        rw [List.getElem?_set_self hilt] at hj
        cases hj
      · rw [List.getElem?_set_ne (Ne.symm hij)] at hj
        exact hpend j hj
    · intro j hj
      by_cases hij : j = i
      · subst hij
        rw [List.getElem?_set_self hilt] at hj
        cases hj
      · rw [List.getElem?_set_ne (Ne.symm hij)] at hj
        exact hrunning j hj
    · intro j hj
      by_cases hij : j = i
      · subst hij
        exact hrunning j h
      · rw [List.getElem?_set_ne (Ne.symm hij)] at hj
        exact hdone j hj

lemma dInv_reachable (limit n : Nat) (s : DState)
    (h : DReachable limit n s) : DInv limit n s := by
  induction h with
  | refl => exact dInv_init limit n
  | tail hsteps hstep ih => exact dInv_step limit n _ _ ih hstep

/-- C7: in every dispatcher state reachable under the semaphore gate of
`CONCURRENT_REQUESTS`, the number of in-flight handler executions never
exceeds `CONCURRENT_REQUESTS`; moreover all `n` tasks persist, no handler is
ever invoked more than once, and a handler that has finished was invoked
exactly once — so when all are awaited each of the `n` handlers has run
exactly once. -/
theorem dispatcher_bounded_and_invokes_once (n : Nat) (s : DState)
    (hreach : DReachable CONCURRENT_REQUESTS n s) :
    runningCount s.tasks ≤ CONCURRENT_REQUESTS ∧
    s.tasks.length = n ∧
    (∀ i, i < n → s.invoked i ≤ 1) ∧
    (∀ i, i < n → s.tasks[i]? = some TaskState.done → s.invoked i = 1) := by
  obtain ⟨hlen, hrun, hpend, hrunning, hdone⟩ :=
    dInv_reachable CONCURRENT_REQUESTS n s hreach
  refine ⟨hrun, hlen, ?_, ?_⟩
  · intro i hi
    have hget : s.tasks[i]? = some (s.tasks.get ⟨i, hlen ▸ hi⟩) := by
      simp [List.getElem?_eq_getElem (hlen ▸ hi)]
    cases hti : s.tasks.get ⟨i, hlen ▸ hi⟩ with
    | pending =>
      have := hpend i (hti ▸ hget)
      omega
    | running =>
      have := hrunning i (hti ▸ hget)
      omega
    | done =>
      have := hdone i (hti ▸ hget)
      omega
  · intro i _ hdi
    exact hdone i hdi

lemma wFinalDState_reachable :
    DReachable CONCURRENT_REQUESTS 1 wFinalDState := by
  have h1 : DStep CONCURRENT_REQUESTS (initDState 1) wMidDState := by
    exact DStep.start (initDState 1) 0 (by rfl) (by decide)
  have h2 : DStep CONCURRENT_REQUESTS wMidDState wFinalDState := by
    exact DStep.finish wMidDState 0 (by rfl)
  exact Relation.ReflTransGen.tail (Relation.ReflTransGen.tail
    Relation.ReflTransGen.refl h1) h2

/-- Witness for C7: the final state of a one-question run, reached by one
start step and one finish step. -/
theorem dispatcher_bounded_and_invokes_once_witness :
    runningCount wFinalDState.tasks ≤ CONCURRENT_REQUESTS ∧
    wFinalDState.invoked 0 = 1 :=
  ⟨(dispatcher_bounded_and_invokes_once 1 wFinalDState wFinalDState_reachable).1,
   (dispatcher_bounded_and_invokes_once 1 wFinalDState
      wFinalDState_reachable).2.2.2 0 (by decide) (by rfl)⟩

end ModelRouting
